import Mathlib

/-!
Team access resource adapter (`tfe/resource_tfe_team_access.go`).

A shallow embedding of the team-access resource of the provider: the record
handle the plugin SDK passes to the resource functions, the remote client the
functions call, and the six resource functions themselves
(`updateComputedAttributes`, `resourceTFETeamAccessCreate`, `...Read`,
`...Update`, `...Delete`, `...Importer`), followed by the properties proved
about them.

Modelling conventions.

* A Go `string` is a Lean `String`, a Go `bool` a Lean `Bool`, a nilable
  pointer an `Option`.
* `*schema.ResourceData` and `*schema.ResourceDiff` are mutable handles; a
  function that mutates one returns the new handle.
* The remote service is a state of an arbitrary type `σ`; the client's
  mutating operations return the next state, its reads do not change it.
  Every remote call is appended to a call log, so that "which request was
  sent" is observable.
* An `error` result is an `Option String` (`none` is Go's `nil`), the string
  being the formatted message.
* `log.Printf` and `q.Q` only trace and are not modelled.
-/

namespace Tfe

/-! ## Schema and record handles -/

/-- The schema keys of type `schema.TypeString` (source lines 35-126). The one
remaining key, `workspace_locking`, is of type `schema.TypeBool` and is
accessed through the `...Bool` functions below. The key `variables` is
written `variables_`, the plain word being reserved in Lean. -/
inductive StrKey
  | access
  | runs
  | variables_
  | state_versions
  | sentinel_mocks
  | team_id
  | workspace_id
  deriving DecidableEq, Repr

/-- The attribute name of a string key, as written in the schema map. -/
def StrKey.name : StrKey → String
  | .access => "access"
  | .runs => "runs"
  | .variables_ => "variables"
  | .state_versions => "state_versions"
  | .sentinel_mocks => "sentinel_mocks"
  | .team_id => "team_id"
  | .workspace_id => "workspace_id"

/-- One level of attribute values of a record: for each schema key either a
value (`some v`) or nothing (`none`: the attribute does not exist at this
level, or is not yet known). -/
structure Attrs where
  access : Option String
  runs : Option String
  variables_ : Option String
  state_versions : Option String
  sentinel_mocks : Option String
  workspace_locking : Option Bool
  team_id : Option String
  workspace_id : Option String
  deriving DecidableEq, Repr

/-- The level with no attribute at all. -/
def Attrs.empty : Attrs :=
  ⟨none, none, none, none, none, none, none, none⟩

/-- Value of a string key at one level. -/
def Attrs.str (a : Attrs) : StrKey → Option String
  | .access => a.access
  | .runs => a.runs
  | .variables_ => a.variables_
  | .state_versions => a.state_versions
  | .sentinel_mocks => a.sentinel_mocks
  | .team_id => a.team_id
  | .workspace_id => a.workspace_id

/-- Write a string key at one level. -/
def Attrs.setStr (a : Attrs) (k : StrKey) (v : String) : Attrs :=
  match k with
  | .access => { a with access := some v }
  | .runs => { a with runs := some v }
  | .variables_ => { a with variables_ := some v }
  | .state_versions => { a with state_versions := some v }
  | .sentinel_mocks => { a with sentinel_mocks := some v }
  | .team_id => { a with team_id := some v }
  | .workspace_id => { a with workspace_id := some v }

/-- The SDK's `*schema.ResourceData`, reduced to what the resource functions
use. The SDK reads a key through a stack of levels; three of them matter here:

* `state`: the attributes of the last-read state (the "old" side of
  `GetChange`);
* `planned`: the state merged with the configuration and the diff (the "new"
  side of `GetChange`);
* `written`: the values written by `d.Set` during the current call.

`Get` and `GetOk` read the topmost level at which the key exists, `written`
first. `id` is what `d.Id()` returns. -/
structure ResourceData where
  id : String
  state : Attrs
  planned : Attrs
  written : Attrs
  deriving DecidableEq, Repr

/-- The SDK's `d.Id()`. -/
def ResourceData.Id (d : ResourceData) : String := d.id

/-- The SDK's `d.SetId(v)`. -/
def ResourceData.SetId (d : ResourceData) (v : String) : ResourceData :=
  { d with id := v }

/-- The merged read of a string key: the written value if there is one,
otherwise the planned one. -/
def ResourceData.readStr (d : ResourceData) (k : StrKey) : Option String :=
  match d.written.str k with
  | some v => some v
  | none => d.planned.str k

/-- The merged read of `workspace_locking`. -/
def ResourceData.readBool (d : ResourceData) : Option Bool :=
  match d.written.workspace_locking with
  | some v => some v
  | none => d.planned.workspace_locking

/-- The SDK's `d.Get(key).(string)`: the merged value, or the zero value `""` of the
type when the key does not exist. -/
def ResourceData.Get (d : ResourceData) (k : StrKey) : String :=
  (d.readStr k).getD ""

/-- The SDK's `d.Get("workspace_locking").(bool)`. -/
def ResourceData.GetBool (d : ResourceData) : Bool :=
  d.readBool.getD false

/-- The SDK's `d.GetOk(key)` for a string key: the value, and whether the key has been
set to a non-zero value (the SDK reports `ok = false` for a key that does not
exist and for one whose value is the zero value `""`). -/
def ResourceData.GetOk (d : ResourceData) (k : StrKey) : String × Bool :=
  match d.readStr k with
  | some v => (v, decide (v ≠ ""))
  | none => ("", false)

/-- The SDK's `d.GetOk("workspace_locking")`: the zero value of `schema.TypeBool` is
`false`, so `ok` is `true` exactly when the key exists and holds `true`. -/
def ResourceData.GetOkBool (d : ResourceData) : Bool × Bool :=
  match d.readBool with
  | some v => (v, decide (v ≠ false))
  | none => (false, false)

/-- The SDK's `d.GetChange(key)` for a string key: the old value read from the state and
the new value read from the planned level, each defaulted to the zero value. -/
def ResourceData.GetChange (d : ResourceData) (k : StrKey) : String × String :=
  ((d.state.str k).getD "", (d.planned.str k).getD "")

/-- The SDK's `d.GetChange("workspace_locking")`. -/
def ResourceData.GetChangeBool (d : ResourceData) : Bool × Bool :=
  (d.state.workspace_locking.getD false, d.planned.workspace_locking.getD false)

/-- The SDK's `d.HasChange(key)`: old and new value of `GetChange` differ. -/
def ResourceData.HasChange (d : ResourceData) (k : StrKey) : Bool :=
  decide ((d.GetChange k).1 ≠ (d.GetChange k).2)

/-- The SDK's `d.HasChange("workspace_locking")`. -/
def ResourceData.HasChangeBool (d : ResourceData) : Bool :=
  decide (d.GetChangeBool.1 ≠ d.GetChangeBool.2)

/-- The SDK's `d.Set(key, value)` for a string key (the error result of `Set`, always
`nil` for a schema key given a value of its type, is dropped by every caller
in the source). -/
def ResourceData.Set (d : ResourceData) (k : StrKey) (v : String) : ResourceData :=
  { d with written := d.written.setStr k v }

/-- The SDK's `d.Set("workspace_locking", value)`. -/
def ResourceData.SetBool (d : ResourceData) (v : Bool) : ResourceData :=
  { d with written := { d.written with workspace_locking := some v } }

/-- The SDK's `*schema.ResourceDiff` handed to `CustomizeDiff`: old and new
attribute values and the set of keys flagged force-new so far. -/
structure ResourceDiff where
  state : Attrs
  planned : Attrs
  forcedNewKeys : List StrKey
  deriving DecidableEq, Repr

/-- The SDK's `d.GetChange(key)` on a diff. -/
def ResourceDiff.GetChange (d : ResourceDiff) (k : StrKey) : String × String :=
  ((d.state.str k).getD "", (d.planned.str k).getD "")

/-- The SDK's `d.HasChange(key)` on a diff. -/
def ResourceDiff.HasChange (d : ResourceDiff) (k : StrKey) : Bool :=
  decide ((d.GetChange k).1 ≠ (d.GetChange k).2)

/-- The SDK's `d.ForceNew(key)`: fails when the key has no change, otherwise records the
key in `forcedNewKeys`. -/
def ResourceDiff.ForceNew (d : ResourceDiff) (k : StrKey) : Except String ResourceDiff :=
  if d.HasChange k then
    .ok { d with forcedNewKeys := if k ∈ d.forcedNewKeys then d.forcedNewKeys
                                  else k :: d.forcedNewKeys }
  else
    .error ("ForceNew: No changes for " ++ k.name)

/-! ## Diff policy (source lines 321-334) -/

/-- Source function `updateComputedAttributes`: the `CustomizeDiff` function of the resource.
Returns the diff handle after the call and the error result. The source drops
the error result of `d.ForceNew`. -/
def updateComputedAttributes (d : ResourceDiff) : ResourceDiff × Option String :=
  if d.HasChange .access then
    let (old, new) := d.GetChange .access
    let toCustomAccess := decide (new = "custom")
    let fromCustomAccess := decide (old = "custom")
    if toCustomAccess || fromCustomAccess then
      match d.ForceNew .access with
      | .ok d' => (d', none)
      | .error _ => (d, none)
    else
      (d, none)
  else
    (d, none)

/-- A diff whose only content is an old and a new access value. -/
def accessDiff (old new : String) : ResourceDiff :=
  { state := { Attrs.empty with access := some old },
    planned := { Attrs.empty with access := some new },
    forcedNewKeys := [] }

/-! ## The remote client (`go-tfe`) -/

/-- The client's `tfe.Team`, reduced to the fields the resource reads. -/
structure Team where
  ID : String
  Name : String
  deriving DecidableEq, Repr

/-- The client's `tfe.Workspace`, reduced to the fields the resource reads. -/
structure Workspace where
  ID : String
  Name : String
  deriving DecidableEq, Repr

/-- The client's `tfe.TeamAccess`: a binding as the remote returns it. `Team` is a pointer
and may be nil. -/
structure TeamAccess where
  ID : String
  Access : String
  Runs : String
  Variables : String
  StateVersions : String
  SentinelMocks : String
  WorkspaceLocking : Bool
  Team : Option Team
  deriving DecidableEq, Repr

/-- The client's `tfe.TeamAccessAddOptions`: every field is a pointer, nil when the field
is not part of the request. -/
structure TeamAccessAddOptions where
  Access : Option String
  Runs : Option String
  Variables : Option String
  StateVersions : Option String
  SentinelMocks : Option String
  WorkspaceLocking : Option Bool
  Team : Option Team
  Workspace : Option Workspace
  deriving DecidableEq, Repr

/-- The client's `tfe.TeamAccessUpdateOptions`: every field is a pointer, nil when the
field is not part of the request. The type has no team and no workspace
field. -/
structure TeamAccessUpdateOptions where
  Access : Option String
  Runs : Option String
  Variables : Option String
  StateVersions : Option String
  SentinelMocks : Option String
  WorkspaceLocking : Option Bool
  deriving DecidableEq, Repr

/-- An error value returned by the client: the sentinel
`tfe.ErrResourceNotFound`, or any other error with its message. The source
tests for the sentinel by identity (`err == tfe.ErrResourceNotFound`), so
another error is distinct from it whatever its message. -/
inductive TfeError
  | ErrResourceNotFound
  | other (msg : String)
  deriving DecidableEq, Repr

/-- The method `err.Error()`, what the verb `%v` prints. -/
def TfeError.Error : TfeError → String
  | .ErrResourceNotFound => "resource not found"
  | .other msg => msg

/-- The operations of `*tfe.Client` the resource calls, over a remote state
`σ`. `fetchWorkspaceExternalID` is a helper of the provider defined outside
this source file; it is taken as a parameter next to the client operations. -/
structure Client (σ : Type) where
  WorkspacesReadByID : σ → String → Except TfeError Workspace
  TeamsRead : σ → String → Except TfeError Team
  TeamAccessAdd : σ → TeamAccessAddOptions → Except TfeError TeamAccess × σ
  TeamAccessRead : σ → String → Except TfeError TeamAccess
  TeamAccessUpdate : σ → String → TeamAccessUpdateOptions → Except TfeError TeamAccess × σ
  TeamAccessRemove : σ → String → Option TfeError × σ
  fetchWorkspaceExternalID : σ → String → Except TfeError String

/-- A remote call, with its arguments, as recorded in the call log. -/
inductive Call
  | WorkspacesReadByID (workspaceID : String)
  | TeamsRead (teamID : String)
  | TeamAccessAdd (options : TeamAccessAddOptions)
  | TeamAccessRead (id : String)
  | TeamAccessUpdate (id : String) (options : TeamAccessUpdateOptions)
  | TeamAccessRemove (id : String)
  | fetchWorkspaceExternalID (key : String)
  deriving DecidableEq, Repr

/-- The world a resource function runs in: the remote state and the log of
the remote calls made so far, oldest first. -/
structure World (σ : Type) where
  remote : σ
  calls : List Call

/-- Append a call to the log. -/
def World.record {σ : Type} (w : World σ) (c : Call) : World σ :=
  { w with calls := w.calls ++ [c] }

/-- What a resource function leaves behind: its error result, the record
handle after the call, and the world after the call. -/
structure Outcome (σ : Type) where
  err : Option String
  d : ResourceData
  w : World σ

/-- What the importer leaves behind: the returned slice of records (`[]` for
Go's nil slice), its error result, and the world after the call. -/
structure ImportOutcome (σ : Type) where
  recs : List ResourceData
  err : Option String
  w : World σ

/-! ## Read (source lines 190-220) -/

/-- Source function `resourceTFETeamAccessRead`. -/
def resourceTFETeamAccessRead {σ : Type} (c : Client σ) (d : ResourceData)
    (w : World σ) : Outcome σ :=
  let w := w.record (.TeamAccessRead d.Id)
  match c.TeamAccessRead w.remote d.Id with
  | .error err =>
    if err = TfeError.ErrResourceNotFound then
      ⟨none, d.SetId "", w⟩
    else
      ⟨some ("Error reading configuration of team access " ++ d.Id ++ ": " ++ err.Error),
        d, w⟩
  | .ok tmAccess =>
    -- Update config.
    let d := d.Set .access tmAccess.Access
    let d := d.Set .runs tmAccess.Runs
    let d := d.Set .variables_ tmAccess.Variables
    let d := d.Set .state_versions tmAccess.StateVersions
    let d := d.Set .sentinel_mocks tmAccess.SentinelMocks
    let d := d.SetBool tmAccess.WorkspaceLocking
    let d :=
      match tmAccess.Team with
      | some tm => d.Set .team_id tm.ID
      | none => d.Set .team_id ""
    ⟨none, d, w⟩

/-! ## Create (source lines 131-188) -/

/-- The options struct built by `resourceTFETeamAccessCreate` (source lines
153-176) from the record, the resolved team and the resolved workspace. -/
def createOptions (d : ResourceData) (tm : Team) (ws : Workspace) : TeamAccessAddOptions :=
  let access := d.Get .access
  let options : TeamAccessAddOptions :=
    { Access := some access, Runs := none, Variables := none, StateVersions := none,
      SentinelMocks := none, WorkspaceLocking := none, Team := some tm, Workspace := some ws }
  if access = "custom" then
    let options :=
      match d.GetOk .runs with
      | (v, true) => { options with Runs := some v }
      | (_, false) => options
    let options :=
      match d.GetOk .variables_ with
      | (v, true) => { options with Variables := some v }
      | (_, false) => options
    let options :=
      match d.GetOk .state_versions with
      | (v, true) => { options with StateVersions := some v }
      | (_, false) => options
    let options :=
      match d.GetOk .sentinel_mocks with
      | (v, true) => { options with SentinelMocks := some v }
      | (_, false) => options
    let options :=
      match d.GetOkBool with
      | (v, true) => { options with WorkspaceLocking := some v }
      | (_, false) => options
    options
  else
    options

/-- Source function `resourceTFETeamAccessCreate`. -/
def resourceTFETeamAccessCreate {σ : Type} (c : Client σ) (d : ResourceData)
    (w : World σ) : Outcome σ :=
  -- Get the access level
  let access := d.Get .access
  -- Get the workspace
  let workspaceID := d.Get .workspace_id
  let w := w.record (.WorkspacesReadByID workspaceID)
  match c.WorkspacesReadByID w.remote workspaceID with
  | .error err =>
    ⟨some ("Error retrieving workspace " ++ workspaceID ++ ": " ++ err.Error), d, w⟩
  | .ok ws =>
    -- Get the team.
    let teamID := d.Get .team_id
    let w := w.record (.TeamsRead teamID)
    match c.TeamsRead w.remote teamID with
    | .error err =>
      ⟨some ("Error retrieving team " ++ teamID ++ ": " ++ err.Error), d, w⟩
    | .ok tm =>
      let options := createOptions d tm ws
      let w := w.record (.TeamAccessAdd options)
      match c.TeamAccessAdd w.remote options with
      | (.error err, remote) =>
        ⟨some ("Error giving team " ++ tm.Name ++ " " ++ access ++ " access to workspace "
            ++ ws.Name ++ ": " ++ err.Error), d, { w with remote := remote }⟩
      | (.ok tmAccess, remote) =>
        resourceTFETeamAccessRead c (d.SetId tmAccess.ID) { w with remote := remote }

/-! ## Update (source lines 222-280) -/

/-- The options struct built by `resourceTFETeamAccessUpdate` (source lines
226-264) from the record. -/
def updateOptions (d : ResourceData) : TeamAccessUpdateOptions :=
  let options : TeamAccessUpdateOptions :=
    { Access := none, Runs := none, Variables := none, StateVersions := none,
      SentinelMocks := none, WorkspaceLocking := none }
  let options :=
    if d.HasChange .access then
      match d.GetOk .access with
      | (v, true) => { options with Access := some v }
      | (_, false) => options
    else options
  let options :=
    if d.HasChange .runs then
      match d.GetOk .runs with
      | (v, true) => { options with Runs := some v }
      | (_, false) => options
    else options
  let options :=
    if d.HasChange .variables_ then
      match d.GetOk .variables_ with
      | (v, true) => { options with Variables := some v }
      | (_, false) => options
    else options
  let options :=
    if d.HasChange .state_versions then
      match d.GetOk .state_versions with
      | (v, true) => { options with StateVersions := some v }
      | (_, false) => options
    else options
  let options :=
    if d.HasChange .sentinel_mocks then
      match d.GetOk .sentinel_mocks with
      | (v, true) => { options with SentinelMocks := some v }
      | (_, false) => options
    else options
  let options :=
    if d.HasChangeBool then
      match d.GetOkBool with
      | (v, true) => { options with WorkspaceLocking := some v }
      | (_, false) => options
    else options
  options

/-- Source function `resourceTFETeamAccessUpdate`. -/
def resourceTFETeamAccessUpdate {σ : Type} (c : Client σ) (d : ResourceData)
    (w : World σ) : Outcome σ :=
  let options := updateOptions d
  let w := w.record (.TeamAccessUpdate d.Id options)
  match c.TeamAccessUpdate w.remote d.Id options with
  | (.error err, remote) =>
    ⟨some ("Error updating team access " ++ d.Id ++ ": " ++ err.Error), d,
      { w with remote := remote }⟩
  | (.ok tmAccess, remote) =>
    let d := d.Set .runs tmAccess.Runs
    let d := d.Set .variables_ tmAccess.Variables
    let d := d.Set .state_versions tmAccess.StateVersions
    let d := d.Set .sentinel_mocks tmAccess.SentinelMocks
    let d := d.SetBool tmAccess.WorkspaceLocking
    ⟨none, d, { w with remote := remote }⟩

/-! ## Delete (source lines 282-296) -/

/-- Source function `resourceTFETeamAccessDelete`. -/
def resourceTFETeamAccessDelete {σ : Type} (c : Client σ) (d : ResourceData)
    (w : World σ) : Outcome σ :=
  let w := w.record (.TeamAccessRemove d.Id)
  match c.TeamAccessRemove w.remote d.Id with
  | (some err, remote) =>
    if err = TfeError.ErrResourceNotFound then
      ⟨none, d, { w with remote := remote }⟩
    else
      ⟨some ("Error deleting team access " ++ d.Id ++ ": " ++ err.Error), d,
        { w with remote := remote }⟩
  | (none, remote) =>
    ⟨none, d, { w with remote := remote }⟩

/-! ## Importer (source lines 298-319) -/

/-- Cut a string, given as its characters, at the first occurrence of the
separator: the part before it and the part after it, or `none` when the
separator does not occur (Go: `m := Index(s, sep)`, `s[:m]`,
`s[m+len(sep):]`). -/
def cutAt (sep : Char) : List Char → Option (List Char × List Char)
  | [] => none
  | c :: cs =>
    if c = sep then some ([], cs)
    else
      match cutAt sep cs with
      | some (before, after) => some (c :: before, after)
      | none => none

/-- The loop of Go's `strings.SplitN` (`genSplit`) for a positive count `n`:
cut at the separator at most `n - 1` times, the last piece being the unsplit
remainder. `n = 0` gives the nil slice. -/
def splitLoop (sep : Char) : Nat → List Char → List (List Char)
  | 0, _ => []
  | 1, s => [s]
  | n + 2, s =>
    match cutAt sep s with
    | some (before, after) => before :: splitLoop sep (n + 1) after
    | none => [s]

/-- Go's `strings.SplitN(s, sep, n)` for a one-byte separator and `n ≥ 0`.
As in `genSplit`, a count above `len(s) + 1` (length in bytes) is first
lowered to `len(s) + 1`. -/
def SplitN (s : String) (sep : Char) (n : Nat) : List String :=
  let n := if n > s.utf8ByteSize + 1 then s.utf8ByteSize + 1 else n
  (splitLoop sep n s.toList).map String.mk

/-- Source function `resourceTFETeamAccessImporter`. -/
def resourceTFETeamAccessImporter {σ : Type} (c : Client σ) (d : ResourceData)
    (w : World σ) : ImportOutcome σ :=
  match SplitN d.Id '/' 3 with
  | [s0, s1, s2] =>
    -- Set the fields that are part of the import ID.
    let w := w.record (.fetchWorkspaceExternalID (s0 ++ "/" ++ s1))
    match c.fetchWorkspaceExternalID w.remote (s0 ++ "/" ++ s1) with
    | .error err =>
      ⟨[], some ("error retrieving workspace " ++ s0 ++ " from organization " ++ s1
          ++ ": " ++ err.Error), w⟩
    | .ok workspace_id =>
      let d := d.Set .workspace_id workspace_id
      let d := d.SetId s2
      ⟨[d], none, w⟩
  | _ =>
    -- len(s) != 3
    ⟨[], some ("invalid team access import format: " ++ d.Id
        ++ " (expected <ORGANIZATION>/<WORKSPACE>/<TEAM ACCESS ID>)"), w⟩

/-! ## Small concrete remotes used in the examples -/

/-- A remote without state whose every operation fails with the given error. -/
def failingClient (e : TfeError) : Client Unit :=
  { WorkspacesReadByID := fun _ _ => .error e,
    TeamsRead := fun _ _ => .error e,
    TeamAccessAdd := fun s _ => (.error e, s),
    TeamAccessRead := fun _ _ => .error e,
    TeamAccessUpdate := fun s _ _ => (.error e, s),
    TeamAccessRemove := fun s _ => (some e, s),
    fetchWorkspaceExternalID := fun _ _ => .error e }

/-- The world before any call, over a remote without state. -/
def startWorld : World Unit := ⟨(), []⟩

/-- A record with the given ID and no attribute. -/
def blankRecord (id : String) : ResourceData :=
  ⟨id, Attrs.empty, Attrs.empty, Attrs.empty⟩

/-- The remote of `storeClient`: the bindings it holds. -/
abbrev Store := List TeamAccess

/-- A small remote that behaves like a store of bindings: every team and
workspace resolves, `Add` stores a binding under an ID derived from team and
workspace and fills the fields the request leaves out with fixed values,
`Read` finds a binding by ID, `Update` overwrites the fields the request
carries, `Remove` deletes a binding, and a missing binding is answered with
`ErrResourceNotFound`. -/
def storeClient : Client Store :=
  { WorkspacesReadByID := fun _ id => .ok ⟨id, "name-of-" ++ id⟩,
    TeamsRead := fun _ id => .ok ⟨id, "name-of-" ++ id⟩,
    TeamAccessAdd := fun s o =>
      let ta : TeamAccess :=
        { ID := "tws-" ++ (o.Team.map (·.ID)).getD "" ++ "-" ++ (o.Workspace.map (·.ID)).getD "",
          Access := o.Access.getD "",
          Runs := o.Runs.getD "read",
          Variables := o.Variables.getD "none",
          StateVersions := o.StateVersions.getD "none",
          SentinelMocks := o.SentinelMocks.getD "none",
          WorkspaceLocking := o.WorkspaceLocking.getD false,
          Team := o.Team }
      (.ok ta, s ++ [ta]),
    TeamAccessRead := fun s id =>
      match s.find? (fun ta => ta.ID == id) with
      | some ta => .ok ta
      | none => .error .ErrResourceNotFound,
    TeamAccessUpdate := fun s id o =>
      match s.find? (fun ta => ta.ID == id) with
      | some ta =>
        let ta' : TeamAccess :=
          { ta with
            Access := o.Access.getD ta.Access,
            Runs := o.Runs.getD ta.Runs,
            Variables := o.Variables.getD ta.Variables,
            StateVersions := o.StateVersions.getD ta.StateVersions,
            SentinelMocks := o.SentinelMocks.getD ta.SentinelMocks,
            WorkspaceLocking := o.WorkspaceLocking.getD ta.WorkspaceLocking }
        (.ok ta', s.map (fun x => if x.ID == id then ta' else x))
      | none => (.error .ErrResourceNotFound, s),
    TeamAccessRemove := fun s id =>
      if s.any (fun ta => ta.ID == id) then (none, s.filter (fun ta => ta.ID != id))
      else (some .ErrResourceNotFound, s),
    fetchWorkspaceExternalID := fun _ key => .ok ("ws-of-" ++ key) }

/-- The world before any call, over a store holding the given bindings. -/
def storeWorld (s : Store) : World Store := ⟨s, []⟩

/-- A binding held by the store in the examples. -/
def sampleBinding : TeamAccess :=
  { ID := "tws-1", Access := "custom", Runs := "apply", Variables := "read",
    StateVersions := "read-outputs", SentinelMocks := "none", WorkspaceLocking := true,
    Team := some ⟨"team-1", "dev"⟩ }

/-! ## Records and remotes used in the examples, and observation helpers -/

/-- A record as the examples use it: a binding with ID `tws-1` whose last-read
state and plan hold a custom access with two sub-permissions. -/
def sampleRecord : ResourceData :=
  let a : Attrs :=
    { access := some "custom", runs := some "apply", variables_ := some "read",
      state_versions := none, sentinel_mocks := none, workspace_locking := some true,
      team_id := some "team-1", workspace_id := some "ws-1" }
  ⟨"tws-1", a, a, Attrs.empty⟩

/-- The SDK's `schemaMap.Data(state, diff)`: the handle as the SDK builds it right before
it calls a resource function, with nothing written yet. -/
def Data (id : String) (state planned : Attrs) : ResourceData :=
  ⟨id, state, planned, Attrs.empty⟩

/-- The value an update request carries for a schema key of string type. The
options struct has no field for `team_id` and none for `workspace_id`. -/
def TeamAccessUpdateOptions.strField (o : TeamAccessUpdateOptions) : StrKey → Option String
  | .access => o.Access
  | .runs => o.Runs
  | .variables_ => o.Variables
  | .state_versions => o.StateVersions
  | .sentinel_mocks => o.SentinelMocks
  | .team_id => none
  | .workspace_id => none

/-- A record about to be created: custom access, `runs` set to `apply` and
`workspace_locking` explicitly set to `false`. -/
def lockingFalseRecord : ResourceData :=
  Data "" Attrs.empty
    { access := some "custom", runs := some "apply", variables_ := none,
      state_versions := none, sentinel_mocks := none, workspace_locking := some false,
      team_id := some "team-1", workspace_id := some "ws-1" }

/-- A remote that accepts an add request without keeping the binding: every
team and workspace resolves, `Add` answers with a binding of ID `tws-9`, and
`Read` answers not-found for every ID except the empty one, which it rejects
as `go-tfe` does (`invalid value for team access ID`). -/
def lossyClient : Client Unit :=
  { WorkspacesReadByID := fun _ id => .ok ⟨id, "name-of-" ++ id⟩,
    TeamsRead := fun _ id => .ok ⟨id, "name-of-" ++ id⟩,
    TeamAccessAdd := fun s o =>
      (.ok { ID := "tws-9", Access := o.Access.getD "", Runs := "read", Variables := "none",
             StateVersions := "none", SentinelMocks := "none", WorkspaceLocking := false,
             Team := o.Team }, s),
    TeamAccessRead := fun _ id =>
      if id = "" then .error (.other "invalid value for team access ID")
      else .error .ErrResourceNotFound,
    TeamAccessUpdate := fun s _ _ => (.error .ErrResourceNotFound, s),
    TeamAccessRemove := fun s _ => (some .ErrResourceNotFound, s),
    fetchWorkspaceExternalID := fun _ key => .ok ("ws-of-" ++ key) }

/-- A record about to be created with a preset access level. -/
def readAccessRecord : ResourceData :=
  Data "" Attrs.empty
    { access := some "read", runs := none, variables_ := none, state_versions := none,
      sentinel_mocks := none, workspace_locking := none,
      team_id := some "team-1", workspace_id := some "ws-1" }

/-- The message of the invalid-import-format error for an identifier. -/
def invalidImportFormat (id : String) : String :=
  "invalid team access import format: " ++ id
    ++ " (expected <ORGANIZATION>/<WORKSPACE>/<TEAM ACCESS ID>)"

/-! ## Theorems -/

/-! ### Diff policy -/

/-- C1: for every diff handle, `updateComputedAttributes` returns no error,
leaves old and new values untouched, and a key is flagged force-new afterwards
exactly when it was flagged before or it is `access`, the access value changed
and the old or the new value is `custom`. In particular, starting from no
flag, admin to custom and custom to read flag `access`, read to plan flags
nothing, and custom to custom with only `runs` changed flags nothing. -/
theorem updateComputedAttributes_forceNew_iff (d : ResourceDiff) :
    (updateComputedAttributes d).2 = none ∧
    (updateComputedAttributes d).1.state = d.state ∧
    (updateComputedAttributes d).1.planned = d.planned ∧
    (∀ k, k ∈ (updateComputedAttributes d).1.forcedNewKeys ↔
      (k ∈ d.forcedNewKeys ∨
        (k = StrKey.access ∧ (d.GetChange .access).1 ≠ (d.GetChange .access).2 ∧
          ((d.GetChange .access).1 = "custom" ∨ (d.GetChange .access).2 = "custom")))) ∧
    (updateComputedAttributes (accessDiff "admin" "custom")).1.forcedNewKeys = [.access] ∧
    (updateComputedAttributes (accessDiff "custom" "read")).1.forcedNewKeys = [.access] ∧
    (updateComputedAttributes (accessDiff "read" "plan")).1.forcedNewKeys = [] ∧
    (updateComputedAttributes
      { state := { Attrs.empty with access := some "custom", runs := some "read" },
        planned := { Attrs.empty with access := some "custom", runs := some "apply" },
        forcedNewKeys := [] }).1.forcedNewKeys = [] := by
  refine ⟨?_, ?_, ?_, ?_, by decide, by decide, by decide, by decide⟩
  · simp only [updateComputedAttributes, ResourceDiff.ForceNew, ResourceDiff.GetChange]
    split_ifs <;> rfl
  · simp only [updateComputedAttributes, ResourceDiff.ForceNew, ResourceDiff.GetChange]
    split_ifs <;> rfl
  · simp only [updateComputedAttributes, ResourceDiff.ForceNew, ResourceDiff.GetChange]
    split_ifs <;> rfl
  · intro k
    unfold updateComputedAttributes ResourceDiff.ForceNew
    by_cases hc : d.HasChange .access = true
    · have hne : (d.GetChange .access).1 ≠ (d.GetChange .access).2 := by
        simpa [ResourceDiff.HasChange] using hc
      by_cases hcu : (d.GetChange .access).2 = "custom" ∨ (d.GetChange .access).1 = "custom"
      · have hcu' : (d.GetChange .access).1 = "custom" ∨ (d.GetChange .access).2 = "custom" :=
          hcu.symm
        by_cases hk : StrKey.access ∈ d.forcedNewKeys
        · simp [hc, hcu, hk]
          intro h _ _
          exact h ▸ hk
        · simp [hc, hcu, hk, hne, hcu']
          tauto
      · have hcu' : ¬ ((d.GetChange .access).1 = "custom" ∨ (d.GetChange .access).2 = "custom") :=
          fun h => hcu h.symm
        simp [hc, hcu, hcu']
    · have hne : ¬ (d.GetChange .access).1 ≠ (d.GetChange .access).2 := by
        simpa [ResourceDiff.HasChange] using hc
      simp [hc, hne]

/-! ### Read -/

/-- Recording a call leaves the remote state as it is. -/
theorem World.record_remote {σ : Type} (w : World σ) (c : Call) :
    (w.record c).remote = w.remote := rfl

/-- Recording a call appends it to the log. -/
theorem World.record_calls {σ : Type} (w : World σ) (c : Call) :
    (w.record c).calls = w.calls ++ [c] := rfl

/-- Read when the remote answers with an error: the outcome in full. -/
theorem read_of_error {σ : Type} (c : Client σ) (d : ResourceData) (w : World σ) (e : TfeError)
    (h : c.TeamAccessRead w.remote d.Id = .error e) :
    resourceTFETeamAccessRead c d w =
      if e = TfeError.ErrResourceNotFound then
        ⟨none, d.SetId "", w.record (.TeamAccessRead d.Id)⟩
      else
        ⟨some ("Error reading configuration of team access " ++ d.Id ++ ": " ++ e.Error),
          d, w.record (.TeamAccessRead d.Id)⟩ := by
  simp only [resourceTFETeamAccessRead, World.record_remote, h]

/-- Read when the remote answers with a binding: the outcome in full. -/
theorem read_of_ok {σ : Type} (c : Client σ) (d : ResourceData) (w : World σ) (ta : TeamAccess)
    (h : c.TeamAccessRead w.remote d.Id = .ok ta) :
    resourceTFETeamAccessRead c d w =
      ⟨none,
        { d with written :=
            { d.written with
              access := some ta.Access, runs := some ta.Runs, variables_ := some ta.Variables,
              state_versions := some ta.StateVersions, sentinel_mocks := some ta.SentinelMocks,
              workspace_locking := some ta.WorkspaceLocking,
              team_id := some (match ta.Team with
                | some tm => tm.ID
                | none => "") } },
        w.record (.TeamAccessRead d.Id)⟩ := by
  simp only [resourceTFETeamAccessRead, World.record_remote, h]
  cases ta.Team <;> rfl

/-- C4: when the remote read of the binding fails with error `e`: if `e` is
not-found, Read returns no error, the record's ID becomes the empty string and
every attribute level of the record is as it was; if `e` is any other error,
Read returns an error (the wrapped message) and the whole record, ID included,
is as it was. -/
theorem read_notFound_clears_id_other_error_fails {σ : Type} (c : Client σ)
    (d : ResourceData) (w : World σ) (e : TfeError)
    (h : c.TeamAccessRead w.remote d.Id = .error e) :
    (e = TfeError.ErrResourceNotFound →
      (resourceTFETeamAccessRead c d w).err = none ∧
      (resourceTFETeamAccessRead c d w).d.Id = "" ∧
      (resourceTFETeamAccessRead c d w).d.state = d.state ∧
      (resourceTFETeamAccessRead c d w).d.planned = d.planned ∧
      (resourceTFETeamAccessRead c d w).d.written = d.written) ∧
    (e ≠ TfeError.ErrResourceNotFound →
      (resourceTFETeamAccessRead c d w).err =
        some ("Error reading configuration of team access " ++ d.Id ++ ": " ++ e.Error) ∧
      (resourceTFETeamAccessRead c d w).d = d) := by
  rw [read_of_error c d w e h]
  constructor
  · intro he
    rw [if_pos he]
    exact ⟨rfl, rfl, rfl, rfl, rfl⟩
  · intro he
    rw [if_neg he]
    exact ⟨rfl, rfl⟩

/-- C4 at concrete inputs: a remote answering not-found clears the ID of
`sampleRecord` without error; a remote answering `timeout` makes Read fail and
leaves `sampleRecord` as it was. -/
theorem read_notFound_clears_id_other_error_fails_witness :
    ((resourceTFETeamAccessRead (failingClient .ErrResourceNotFound) sampleRecord
        startWorld).err = none ∧
      (resourceTFETeamAccessRead (failingClient .ErrResourceNotFound) sampleRecord
        startWorld).d.Id = "") ∧
    ((resourceTFETeamAccessRead (failingClient (.other "timeout")) sampleRecord
        startWorld).err = some "Error reading configuration of team access tws-1: timeout" ∧
      (resourceTFETeamAccessRead (failingClient (.other "timeout")) sampleRecord
        startWorld).d = sampleRecord) :=
  ⟨⟨((read_notFound_clears_id_other_error_fails (failingClient .ErrResourceNotFound)
        sampleRecord startWorld .ErrResourceNotFound rfl).1 rfl).1,
    ((read_notFound_clears_id_other_error_fails (failingClient .ErrResourceNotFound)
        sampleRecord startWorld .ErrResourceNotFound rfl).1 rfl).2.1⟩,
   (read_notFound_clears_id_other_error_fails (failingClient (.other "timeout"))
      sampleRecord startWorld (.other "timeout") rfl).2 (by decide)⟩

/-- C8: when the remote read answers with a binding `ta`, Read returns no
error and afterwards the record reads `access`, `runs`, `variables`,
`state_versions`, `sentinel_mocks` and `workspace_locking` as `ta` holds them,
whatever it held before; `team_id` reads as the ID of the team of `ta`, or as
the empty string when `ta` has no team; the ID, `workspace_id`, the last-read
state and the plan are as they were. -/
theorem read_success_overwrites_fields {σ : Type} (c : Client σ) (d : ResourceData)
    (w : World σ) (ta : TeamAccess) (h : c.TeamAccessRead w.remote d.Id = .ok ta) :
    (resourceTFETeamAccessRead c d w).err = none ∧
    (resourceTFETeamAccessRead c d w).d.Get .access = ta.Access ∧
    (resourceTFETeamAccessRead c d w).d.Get .runs = ta.Runs ∧
    (resourceTFETeamAccessRead c d w).d.Get .variables_ = ta.Variables ∧
    (resourceTFETeamAccessRead c d w).d.Get .state_versions = ta.StateVersions ∧
    (resourceTFETeamAccessRead c d w).d.Get .sentinel_mocks = ta.SentinelMocks ∧
    (resourceTFETeamAccessRead c d w).d.GetBool = ta.WorkspaceLocking ∧
    (∀ tm, ta.Team = some tm → (resourceTFETeamAccessRead c d w).d.Get .team_id = tm.ID) ∧
    (ta.Team = none → (resourceTFETeamAccessRead c d w).d.Get .team_id = "") ∧
    (resourceTFETeamAccessRead c d w).d.Id = d.Id ∧
    (resourceTFETeamAccessRead c d w).d.Get .workspace_id = d.Get .workspace_id ∧
    (resourceTFETeamAccessRead c d w).d.state = d.state ∧
    (resourceTFETeamAccessRead c d w).d.planned = d.planned := by
  rw [read_of_ok c d w ta h]
  refine ⟨rfl, rfl, rfl, rfl, rfl, rfl, rfl, ?_, ?_, rfl, rfl, rfl, rfl⟩
  · intro tm htm
    simp [ResourceData.Get, ResourceData.readStr, Attrs.str, htm]
  · intro htm
    simp [ResourceData.Get, ResourceData.readStr, Attrs.str, htm]

/-- C8 at a concrete input: the store holds `sampleBinding` under `tws-1`; a
record with that ID and stale attributes reads back the binding's values. -/
theorem read_success_overwrites_fields_witness :
    (resourceTFETeamAccessRead storeClient
        ⟨"tws-1", Attrs.empty, { Attrs.empty with access := some "read" }, Attrs.empty⟩
        (storeWorld [sampleBinding])).d.Get .access = "custom" ∧
    (resourceTFETeamAccessRead storeClient
        ⟨"tws-1", Attrs.empty, { Attrs.empty with access := some "read" }, Attrs.empty⟩
        (storeWorld [sampleBinding])).d.Get .team_id = "team-1" :=
  ⟨(read_success_overwrites_fields storeClient
      ⟨"tws-1", Attrs.empty, { Attrs.empty with access := some "read" }, Attrs.empty⟩
      (storeWorld [sampleBinding]) sampleBinding rfl).2.1,
   (read_success_overwrites_fields storeClient
      ⟨"tws-1", Attrs.empty, { Attrs.empty with access := some "read" }, Attrs.empty⟩
      (storeWorld [sampleBinding]) sampleBinding rfl).2.2.2.2.2.2.2.1 _ rfl⟩

/-! ### Delete -/

/-- C5: Delete returns an error exactly when the remote remove call fails with
an error other than not-found (so a successful remove and a not-found answer
both return no error), and the record is as it was in every case. On the
store remote, deleting `tws-1` twice in a row returns no error both times: the
first call removes the binding, the second is answered not-found. -/
theorem delete_error_iff_remove_fails_otherwise {σ : Type} (c : Client σ)
    (d : ResourceData) (w : World σ) :
    ((resourceTFETeamAccessDelete c d w).err ≠ none ↔
      ∃ e, (c.TeamAccessRemove w.remote d.Id).1 = some e ∧ e ≠ TfeError.ErrResourceNotFound) ∧
    (resourceTFETeamAccessDelete c d w).d = d ∧
    ((resourceTFETeamAccessDelete storeClient sampleRecord (storeWorld [sampleBinding])).err = none ∧
      (resourceTFETeamAccessDelete storeClient sampleRecord
        (storeWorld [sampleBinding])).w.remote = [] ∧
      (resourceTFETeamAccessDelete storeClient sampleRecord
        (resourceTFETeamAccessDelete storeClient sampleRecord
          (storeWorld [sampleBinding])).w).err = none ∧
      (resourceTFETeamAccessDelete storeClient sampleRecord
        (resourceTFETeamAccessDelete storeClient sampleRecord
          (storeWorld [sampleBinding])).w).w.calls =
        [.TeamAccessRemove "tws-1", .TeamAccessRemove "tws-1"]) := by
  refine ⟨?_, ?_, by decide⟩
  · simp only [resourceTFETeamAccessDelete, World.record_remote]
    rcases hr : c.TeamAccessRemove w.remote d.Id with ⟨_ | e, s⟩
    · simp
    · by_cases he : e = TfeError.ErrResourceNotFound
      · simp [he]
      · simp [he]
  · simp only [resourceTFETeamAccessDelete, World.record_remote]
    rcases hr : c.TeamAccessRemove w.remote d.Id with ⟨_ | e, s⟩
    · rfl
    · by_cases he : e = TfeError.ErrResourceNotFound
      · simp [he]
      · simp [he]

/-! ### Create -/

/-- The read `GetOk` on a string key reports `ok` with value `v` exactly when the
merged read of the key is `v` and `v` is not the empty string. -/
theorem GetOk_iff (d : ResourceData) (k : StrKey) (v : String) :
    ((d.GetOk k).2 = true ∧ (d.GetOk k).1 = v) ↔ (d.readStr k = some v ∧ v ≠ "") := by
  unfold ResourceData.GetOk
  cases d.readStr k with
  | none => simp
  | some x =>
    simp only [decide_eq_true_eq, Option.some.injEq]
    constructor
    · rintro ⟨h1, h2⟩
      exact ⟨h2, h2 ▸ h1⟩
    · rintro ⟨h1, h2⟩
      exact ⟨h1 ▸ h2, h1⟩

/-- The read `GetOkBool` reports `ok` with value `b` exactly when the merged read of
`workspace_locking` is `b` and `b` is `true`. -/
theorem GetOkBool_iff (d : ResourceData) (b : Bool) :
    (d.GetOkBool.2 = true ∧ d.GetOkBool.1 = b) ↔ (d.readBool = some b ∧ b = true) := by
  unfold ResourceData.GetOkBool
  cases d.readBool with
  | none => simp
  | some x => cases x <;> cases b <;> simp

/-- The options built by Create, field by field. -/
theorem createOptions_closed (d : ResourceData) (tm : Team) (ws : Workspace) :
    createOptions d tm ws =
      { Access := some (d.Get .access),
        Runs := if d.Get .access = "custom" ∧ (d.GetOk .runs).2 = true
          then some (d.GetOk .runs).1 else none,
        Variables := if d.Get .access = "custom" ∧ (d.GetOk .variables_).2 = true
          then some (d.GetOk .variables_).1 else none,
        StateVersions := if d.Get .access = "custom" ∧ (d.GetOk .state_versions).2 = true
          then some (d.GetOk .state_versions).1 else none,
        SentinelMocks := if d.Get .access = "custom" ∧ (d.GetOk .sentinel_mocks).2 = true
          then some (d.GetOk .sentinel_mocks).1 else none,
        WorkspaceLocking := if d.Get .access = "custom" ∧ d.GetOkBool.2 = true
          then some d.GetOkBool.1 else none,
        Team := some tm,
        Workspace := some ws } := by
  unfold createOptions
  by_cases hc : d.Get .access = "custom"
  · simp only [hc, if_true, true_and]
    generalize d.GetOk .runs = g2
    generalize d.GetOk .variables_ = g3
    generalize d.GetOk .state_versions = g4
    generalize d.GetOk .sentinel_mocks = g5
    generalize d.GetOkBool = g6
    obtain ⟨v2, b2⟩ := g2
    obtain ⟨v3, b3⟩ := g3
    obtain ⟨v4, b4⟩ := g4
    obtain ⟨v5, b5⟩ := g5
    obtain ⟨v6, b6⟩ := g6
    cases b2 <;> cases b3 <;> cases b4 <;> cases b5 <;> cases b6 <;> rfl
  · simp only [hc, if_false, false_and]

/-- Read always logs exactly one call, the read of the record's ID. -/
theorem read_calls {σ : Type} (c : Client σ) (d : ResourceData) (w : World σ) :
    (resourceTFETeamAccessRead c d w).w.calls = w.calls ++ [.TeamAccessRead d.Id] := by
  cases h : c.TeamAccessRead w.remote d.Id with
  | error e =>
    rw [read_of_error c d w e h]
    split_ifs <;> rfl
  | ok ta => rw [read_of_ok c d w ta h]; rfl

/-- Read leaves the remote state as it is. -/
theorem read_remote {σ : Type} (c : Client σ) (d : ResourceData) (w : World σ) :
    (resourceTFETeamAccessRead c d w).w.remote = w.remote := by
  cases h : c.TeamAccessRead w.remote d.Id with
  | error e =>
    rw [read_of_error c d w e h]
    split_ifs <;> rfl
  | ok ta => rw [read_of_ok c d w ta h]; rfl

/-- Create when team and workspace resolve: the outcome in terms of the answer
to the add request. -/
theorem create_of_resolved {σ : Type} (c : Client σ) (d : ResourceData) (w : World σ)
    (ws : Workspace) (tm : Team)
    (hws : c.WorkspacesReadByID w.remote (d.Get .workspace_id) = .ok ws)
    (htm : c.TeamsRead w.remote (d.Get .team_id) = .ok tm) :
    resourceTFETeamAccessCreate c d w =
      match c.TeamAccessAdd w.remote (createOptions d tm ws) with
      | (.error err, remote) =>
        ⟨some ("Error giving team " ++ tm.Name ++ " " ++ d.Get .access
            ++ " access to workspace " ++ ws.Name ++ ": " ++ err.Error), d,
          ⟨remote, w.calls ++ [.WorkspacesReadByID (d.Get .workspace_id),
            .TeamsRead (d.Get .team_id), .TeamAccessAdd (createOptions d tm ws)]⟩⟩
      | (.ok tmAccess, remote) =>
        resourceTFETeamAccessRead c (d.SetId tmAccess.ID)
          ⟨remote, w.calls ++ [.WorkspacesReadByID (d.Get .workspace_id),
            .TeamsRead (d.Get .team_id), .TeamAccessAdd (createOptions d tm ws)]⟩ := by
  simp only [resourceTFETeamAccessCreate, World.record_remote, hws, htm]
  rcases c.TeamAccessAdd w.remote (createOptions d tm ws) with ⟨_ | _, remote⟩ <;>
    simp [World.record, List.append_assoc]

/-- C2 (as amended): when workspace and team resolve to `ws` and `tm`, Create
calls the remote with the workspace read, the team read and then exactly one
add request (followed at most by a read of the new binding). The add request
carries the access level, `tm` and `ws`. When access is `custom` it carries a
string sub-permission with value `v` exactly when the record holds `v` for it
and `v` is not the empty string, and `workspace_locking` with value `b`
exactly when the record holds `b` for it and `b` is `true`. When access is
not `custom` it carries none of the five sub-permissions. -/
theorem create_request_fields {σ : Type} (c : Client σ) (d : ResourceData) (w : World σ)
    (ws : Workspace) (tm : Team)
    (hws : c.WorkspacesReadByID w.remote (d.Get .workspace_id) = .ok ws)
    (htm : c.TeamsRead w.remote (d.Get .team_id) = .ok tm) :
    (∃ rest, (resourceTFETeamAccessCreate c d w).w.calls =
        w.calls ++ [.WorkspacesReadByID (d.Get .workspace_id), .TeamsRead (d.Get .team_id),
          .TeamAccessAdd (createOptions d tm ws)] ++ rest ∧
        ∀ o, Call.TeamAccessAdd o ∉ rest) ∧
    (createOptions d tm ws).Access = some (d.Get .access) ∧
    (createOptions d tm ws).Team = some tm ∧
    (createOptions d tm ws).Workspace = some ws ∧
    (d.Get .access = "custom" →
      (∀ v, (createOptions d tm ws).Runs = some v ↔ (d.readStr .runs = some v ∧ v ≠ "")) ∧
      (∀ v, (createOptions d tm ws).Variables = some v ↔
        (d.readStr .variables_ = some v ∧ v ≠ "")) ∧
      (∀ v, (createOptions d tm ws).StateVersions = some v ↔
        (d.readStr .state_versions = some v ∧ v ≠ "")) ∧
      (∀ v, (createOptions d tm ws).SentinelMocks = some v ↔
        (d.readStr .sentinel_mocks = some v ∧ v ≠ "")) ∧
      (∀ b, (createOptions d tm ws).WorkspaceLocking = some b ↔
        (d.readBool = some b ∧ b = true))) ∧
    (d.Get .access ≠ "custom" →
      (createOptions d tm ws).Runs = none ∧
      (createOptions d tm ws).Variables = none ∧
      (createOptions d tm ws).StateVersions = none ∧
      (createOptions d tm ws).SentinelMocks = none ∧
      (createOptions d tm ws).WorkspaceLocking = none) := by
  have hstr : ∀ (k : StrKey) (v : String),
      (if d.Get .access = "custom" ∧ (d.GetOk k).2 = true then some (d.GetOk k).1 else none)
        = some v ↔ (d.Get .access = "custom" ∧ d.readStr k = some v ∧ v ≠ "") := by
    intro k v
    rw [← GetOk_iff]
    by_cases h : d.Get .access = "custom" ∧ (d.GetOk k).2 = true
    · rw [if_pos h]; simp [h.1, h.2]
    · rw [if_neg h]
      simp only [false_iff, reduceCtorEq]
      rintro ⟨h1, h2, -⟩
      exact h ⟨h1, h2⟩
  have hbool : ∀ (b : Bool),
      (if d.Get .access = "custom" ∧ d.GetOkBool.2 = true then some d.GetOkBool.1 else none)
        = some b ↔ (d.Get .access = "custom" ∧ d.readBool = some b ∧ b = true) := by
    intro b
    rw [← GetOkBool_iff]
    by_cases h : d.Get .access = "custom" ∧ d.GetOkBool.2 = true
    · rw [if_pos h]; simp [h.1, h.2]
    · rw [if_neg h]
      simp only [false_iff, reduceCtorEq]
      rintro ⟨h1, h2, -⟩
      exact h ⟨h1, h2⟩
  refine ⟨?_, ?_, ?_, ?_, ?_, ?_⟩
  · rw [create_of_resolved c d w ws tm hws htm]
    rcases c.TeamAccessAdd w.remote (createOptions d tm ws) with ⟨e | ta, remote⟩
    · exact ⟨[], by simp, by simp⟩
    · refine ⟨[.TeamAccessRead ta.ID], ?_, by simp⟩
      simp only [read_calls]
      rfl
  · rw [createOptions_closed]
  · rw [createOptions_closed]
  · rw [createOptions_closed]
  · intro hc
    rw [createOptions_closed]
    refine ⟨fun v => ?_, fun v => ?_, fun v => ?_, fun v => ?_, fun b => ?_⟩
    · simpa [hc] using hstr .runs v
    · simpa [hc] using hstr .variables_ v
    · simpa [hc] using hstr .state_versions v
    · simpa [hc] using hstr .sentinel_mocks v
    · simpa [hc] using hbool b
  · intro hc
    rw [createOptions_closed]
    simp [hc]

/-- C2 (as amended) at a concrete input: on the store remote, where team
`team-1` and workspace `ws-1` resolve, the add request built for
`lockingFalseRecord` carries the resolved team and `runs` with the record's
value `apply`. -/
theorem create_request_fields_witness :
    (createOptions lockingFalseRecord ⟨"team-1", "name-of-team-1"⟩
      ⟨"ws-1", "name-of-ws-1"⟩).Team = some ⟨"team-1", "name-of-team-1"⟩ ∧
    (createOptions lockingFalseRecord ⟨"team-1", "name-of-team-1"⟩
      ⟨"ws-1", "name-of-ws-1"⟩).Runs = some "apply" :=
  ⟨(create_request_fields storeClient lockingFalseRecord (storeWorld [])
      ⟨"ws-1", "name-of-ws-1"⟩ ⟨"team-1", "name-of-team-1"⟩ rfl rfl).2.2.1,
   (((create_request_fields storeClient lockingFalseRecord (storeWorld [])
      ⟨"ws-1", "name-of-ws-1"⟩ ⟨"team-1", "name-of-team-1"⟩ rfl rfl).2.2.2.2.1 rfl).1
      "apply").2 ⟨rfl, by decide⟩⟩

/-- C2 refuted as stated: `lockingFalseRecord` has custom access and holds
`workspace_locking` explicitly (set to `false`), yet the add request Create
sends on the store remote carries no `workspace_locking`; `runs`, set to
`apply`, is carried. -/
theorem create_omits_explicit_false_locking :
    lockingFalseRecord.Get .access = "custom" ∧
    lockingFalseRecord.readBool = some false ∧
    (resourceTFETeamAccessCreate storeClient lockingFalseRecord (storeWorld [])).err = none ∧
    (resourceTFETeamAccessCreate storeClient lockingFalseRecord (storeWorld [])).w.calls =
      [.WorkspacesReadByID "ws-1", .TeamsRead "team-1",
        .TeamAccessAdd
          { Access := some "custom", Runs := some "apply", Variables := none,
            StateVersions := none, SentinelMocks := none, WorkspaceLocking := none,
            Team := some ⟨"team-1", "name-of-team-1"⟩,
            Workspace := some ⟨"ws-1", "name-of-ws-1"⟩ },
        .TeamAccessRead "tws-team-1-ws-1"] := by
  decide

/-! ### Update -/

/-- The options built by Update, field by field. -/
theorem updateOptions_closed (d : ResourceData) :
    updateOptions d =
      { Access := if d.HasChange .access = true ∧ (d.GetOk .access).2 = true
          then some (d.GetOk .access).1 else none,
        Runs := if d.HasChange .runs = true ∧ (d.GetOk .runs).2 = true
          then some (d.GetOk .runs).1 else none,
        Variables := if d.HasChange .variables_ = true ∧ (d.GetOk .variables_).2 = true
          then some (d.GetOk .variables_).1 else none,
        StateVersions :=
          if d.HasChange .state_versions = true ∧ (d.GetOk .state_versions).2 = true
          then some (d.GetOk .state_versions).1 else none,
        SentinelMocks :=
          if d.HasChange .sentinel_mocks = true ∧ (d.GetOk .sentinel_mocks).2 = true
          then some (d.GetOk .sentinel_mocks).1 else none,
        WorkspaceLocking := if d.HasChangeBool = true ∧ d.GetOkBool.2 = true
          then some d.GetOkBool.1 else none } := by
  unfold updateOptions
  generalize d.HasChange .access = h1
  generalize d.HasChange .runs = h2
  generalize d.HasChange .variables_ = h3
  generalize d.HasChange .state_versions = h4
  generalize d.HasChange .sentinel_mocks = h5
  generalize d.HasChangeBool = h6
  generalize d.GetOk .access = g1
  generalize d.GetOk .runs = g2
  generalize d.GetOk .variables_ = g3
  generalize d.GetOk .state_versions = g4
  generalize d.GetOk .sentinel_mocks = g5
  generalize d.GetOkBool = g6
  obtain ⟨v1, b1⟩ := g1
  obtain ⟨v2, b2⟩ := g2
  obtain ⟨v3, b3⟩ := g3
  obtain ⟨v4, b4⟩ := g4
  obtain ⟨v5, b5⟩ := g5
  obtain ⟨v6, b6⟩ := g6
  (cases h1 <;> [skip; cases b1]) <;> (cases h2 <;> [skip; cases b2]) <;>
    (cases h3 <;> [skip; cases b3]) <;> (cases h4 <;> [skip; cases b4]) <;>
    (cases h5 <;> [skip; cases b5]) <;> (cases h6 <;> [skip; cases b6]) <;> rfl

/-- On a handle as the SDK builds it, the merged read of a string key is the
planned value. -/
theorem Data_readStr (id : String) (state planned : Attrs) (k : StrKey) :
    (Data id state planned).readStr k = planned.str k := by
  cases k <;> rfl

/-- One string field of the update request: it is carried with value `v`
exactly when the key changed, `v` is the new value and `v` is not empty. -/
theorem update_field_iff (id : String) (state planned : Attrs) (k : StrKey) (v : String) :
    (if (Data id state planned).HasChange k = true ∧ ((Data id state planned).GetOk k).2 = true
      then some ((Data id state planned).GetOk k).1 else none) = some v ↔
    (((Data id state planned).GetChange k).1 ≠ ((Data id state planned).GetChange k).2 ∧
      v = ((Data id state planned).GetChange k).2 ∧ v ≠ "") := by
  have hok := GetOk_iff (Data id state planned) k v
  rw [Data_readStr] at hok
  have hnew : ((Data id state planned).GetChange k).2 = (planned.str k).getD "" := rfl
  have hch : (Data id state planned).HasChange k = true ↔
      ((Data id state planned).GetChange k).1 ≠ ((Data id state planned).GetChange k).2 := by
    simp [ResourceData.HasChange]
  rw [hnew]
  constructor
  · intro h
    split_ifs at h with hc
    have hv : ((Data id state planned).GetOk k).1 = v := by simpa using h
    have h2 := hok.1 ⟨hc.2, hv⟩
    refine ⟨hch.1 hc.1, ?_, h2.2⟩
    rw [h2.1]; rfl
  · rintro ⟨h1, h2, h3⟩
    have hp : planned.str k = some v := by
      cases hpk : planned.str k with
      | none => rw [hpk] at h2; exact absurd h2 h3
      | some x => rw [hpk] at h2; simp at h2; rw [h2]
    have h4 := hok.2 ⟨hp, h3⟩
    rw [if_pos ⟨hch.2 h1, h4.1⟩, h4.2]

/-- The `workspace_locking` field of the update request: it is carried with
value `b` exactly when the key changed, `b` is the new value and `b` is
`true`. -/
theorem update_locking_iff (id : String) (state planned : Attrs) (b : Bool) :
    (if (Data id state planned).HasChangeBool = true ∧ (Data id state planned).GetOkBool.2 = true
      then some (Data id state planned).GetOkBool.1 else none) = some b ↔
    ((Data id state planned).GetChangeBool.1 ≠ (Data id state planned).GetChangeBool.2 ∧
      b = (Data id state planned).GetChangeBool.2 ∧ b = true) := by
  obtain ⟨_, _, _, _, _, s, _, _⟩ := state
  obtain ⟨_, _, _, _, _, p, _, _⟩ := planned
  rcases s with _ | _ | _ <;> rcases p with _ | _ | _ <;> cases b <;>
    simp [ResourceData.HasChangeBool, ResourceData.GetChangeBool, ResourceData.GetOkBool,
      ResourceData.readBool, Data, Attrs.empty]

/-- C3: for every record handed to Update (any ID, last-read state and plan),
Update sends exactly one request, the update request built from the record,
and for each of access, runs, variables, state_versions, sentinel_mocks and
workspace_locking: when old and new value are equal the request does not carry
the field, and when the request carries the field the value it carries is the
new value (so a carried field has a new value different from the old one). -/
theorem update_request_only_changed_fields {σ : Type} (c : Client σ) (id : String)
    (state planned : Attrs) (w : World σ) :
    (resourceTFETeamAccessUpdate c (Data id state planned) w).w.calls =
      w.calls ++ [.TeamAccessUpdate id (updateOptions (Data id state planned))] ∧
    (∀ k : StrKey,
      (((Data id state planned).GetChange k).1 = ((Data id state planned).GetChange k).2 →
        (updateOptions (Data id state planned)).strField k = none) ∧
      (∀ v, (updateOptions (Data id state planned)).strField k = some v →
        ((Data id state planned).GetChange k).1 ≠ ((Data id state planned).GetChange k).2 ∧
        v = ((Data id state planned).GetChange k).2)) ∧
    ((Data id state planned).GetChangeBool.1 = (Data id state planned).GetChangeBool.2 →
      (updateOptions (Data id state planned)).WorkspaceLocking = none) ∧
    (∀ b, (updateOptions (Data id state planned)).WorkspaceLocking = some b →
      (Data id state planned).GetChangeBool.1 ≠ (Data id state planned).GetChangeBool.2 ∧
      b = (Data id state planned).GetChangeBool.2) ∧
    (updateOptions (Data id state planned)).strField .access =
      (updateOptions (Data id state planned)).Access ∧
    (updateOptions (Data id state planned)).strField .runs =
      (updateOptions (Data id state planned)).Runs ∧
    (updateOptions (Data id state planned)).strField .variables_ =
      (updateOptions (Data id state planned)).Variables ∧
    (updateOptions (Data id state planned)).strField .state_versions =
      (updateOptions (Data id state planned)).StateVersions ∧
    (updateOptions (Data id state planned)).strField .sentinel_mocks =
      (updateOptions (Data id state planned)).SentinelMocks := by
  have hfield : ∀ (k : StrKey) (v : String),
      (updateOptions (Data id state planned)).strField k = some v →
      ((Data id state planned).GetChange k).1 ≠ ((Data id state planned).GetChange k).2 ∧
      v = ((Data id state planned).GetChange k).2 := by
    intro k v h
    rw [updateOptions_closed] at h
    cases k
    case team_id => simp [TeamAccessUpdateOptions.strField] at h
    case workspace_id => simp [TeamAccessUpdateOptions.strField] at h
    all_goals
      have h' := (update_field_iff id state planned _ v).1 h
      exact ⟨h'.1, h'.2.1⟩
  have hlock : ∀ b, (updateOptions (Data id state planned)).WorkspaceLocking = some b →
      (Data id state planned).GetChangeBool.1 ≠ (Data id state planned).GetChangeBool.2 ∧
      b = (Data id state planned).GetChangeBool.2 := by
    intro b h
    rw [updateOptions_closed] at h
    have h' := (update_locking_iff id state planned b).1 h
    exact ⟨h'.1, h'.2.1⟩
  refine ⟨?_, ?_, ?_, hlock, rfl, rfl, rfl, rfl, rfl⟩
  · simp only [resourceTFETeamAccessUpdate, World.record_remote]
    rcases c.TeamAccessUpdate w.remote (Data id state planned).Id
      (updateOptions (Data id state planned)) with ⟨_ | _, remote⟩ <;> rfl
  · intro k
    refine ⟨?_, hfield k⟩
    intro heq
    cases hs : (updateOptions (Data id state planned)).strField k with
    | none => rfl
    | some v => exact absurd heq (hfield k v hs).1
  · intro heq
    cases hs : (updateOptions (Data id state planned)).WorkspaceLocking with
    | none => rfl
    | some b => exact absurd heq (hlock b hs).1

/-- A change of access into or out of `custom` is flagged by the diff policy. -/
theorem forceNew_flagged_of_custom_change (d : ResourceDiff)
    (hne : (d.GetChange .access).1 ≠ (d.GetChange .access).2)
    (hcu : (d.GetChange .access).1 = "custom" ∨ (d.GetChange .access).2 = "custom") :
    StrKey.access ∈ (updateComputedAttributes d).1.forcedNewKeys := by
  have hc : d.HasChange .access = true := by simpa [ResourceDiff.HasChange] using hne
  have hcu' : (d.GetChange .access).2 = "custom" ∨ (d.GetChange .access).1 = "custom" := hcu.symm
  unfold updateComputedAttributes ResourceDiff.ForceNew
  by_cases hk : StrKey.access ∈ d.forcedNewKeys
  · simp [hc, hcu', hk]
  · simp [hc, hcu', hk]

/-- A key the diff policy flags was flagged before, or it is `access`, changed
into or out of `custom`. -/
theorem custom_change_of_forceNew_flagged (d : ResourceDiff)
    (hk : StrKey.access ∉ d.forcedNewKeys)
    (hmem : StrKey.access ∈ (updateComputedAttributes d).1.forcedNewKeys) :
    (d.GetChange .access).1 ≠ (d.GetChange .access).2 ∧
    ((d.GetChange .access).1 = "custom" ∨ (d.GetChange .access).2 = "custom") := by
  unfold updateComputedAttributes ResourceDiff.ForceNew at hmem
  by_cases hc : d.HasChange .access = true
  · have hne : (d.GetChange .access).1 ≠ (d.GetChange .access).2 := by
      simpa [ResourceDiff.HasChange] using hc
    by_cases hcu : (d.GetChange .access).2 = "custom" ∨ (d.GetChange .access).1 = "custom"
    · exact ⟨hne, hcu.symm⟩
    · simp [hc, hcu] at hmem
      exact absurd hmem hk
  · simp [hc] at hmem
    exact absurd hmem hk

/-- C10 (as amended): for every record handed to Update, the update request
carries neither `team_id` nor `workspace_id` (the request type has no such
field); it carries access with value `v` exactly when the access value
changed, `v` is the new value and `v` is not empty, whatever the diff policy
says about the change. Hence the request carries an access whose change
`updateComputedAttributes` flags force-new exactly when access changed, the
new value is not empty, and the old or the new value is `custom`; and for a
record whose access change is not flagged, a carried access is a change
between two values other than `custom`. A flagged change that the request does
not carry exists: from `custom` to an unset access. -/
theorem update_request_force_new_fields (id : String) (state planned : Attrs) :
    (updateOptions (Data id state planned)).strField .team_id = none ∧
    (updateOptions (Data id state planned)).strField .workspace_id = none ∧
    (∀ v, (updateOptions (Data id state planned)).Access = some v ↔
      (((Data id state planned).GetChange .access).1 ≠
          ((Data id state planned).GetChange .access).2 ∧
        v = ((Data id state planned).GetChange .access).2 ∧ v ≠ "")) ∧
    (((∃ v, (updateOptions (Data id state planned)).Access = some v) ∧
        StrKey.access ∈ (updateComputedAttributes ⟨state, planned, []⟩).1.forcedNewKeys) ↔
      (((Data id state planned).GetChange .access).1 ≠
          ((Data id state planned).GetChange .access).2 ∧
        ((Data id state planned).GetChange .access).2 ≠ "" ∧
        (((Data id state planned).GetChange .access).1 = "custom" ∨
          ((Data id state planned).GetChange .access).2 = "custom"))) ∧
    ((updateComputedAttributes ⟨state, planned, []⟩).1.forcedNewKeys = [] →
      ∀ v, (updateOptions (Data id state planned)).Access = some v →
        ((Data id state planned).GetChange .access).1 ≠ "custom" ∧ v ≠ "custom") ∧
    ((updateComputedAttributes
        ⟨{ Attrs.empty with access := some "custom" }, Attrs.empty, []⟩).1.forcedNewKeys
        = [.access] ∧
      (updateOptions (Data "tws-1" { Attrs.empty with access := some "custom" }
        Attrs.empty)).Access = none) := by
  have hacc : ∀ v, (updateOptions (Data id state planned)).Access = some v ↔
      (((Data id state planned).GetChange .access).1 ≠
          ((Data id state planned).GetChange .access).2 ∧
        v = ((Data id state planned).GetChange .access).2 ∧ v ≠ "") := by
    intro v
    rw [updateOptions_closed]
    exact update_field_iff id state planned .access v
  have hold : (ResourceDiff.GetChange ⟨state, planned, []⟩ .access).1 =
      ((Data id state planned).GetChange .access).1 := rfl
  have hnew' : (ResourceDiff.GetChange ⟨state, planned, []⟩ .access).2 =
      ((Data id state planned).GetChange .access).2 := rfl
  refine ⟨rfl, rfl, hacc, ?_, ?_, by decide⟩
  · constructor
    · rintro ⟨⟨v, hv⟩, hmem⟩
      obtain ⟨hne, hnew, hv0⟩ := (hacc v).1 hv
      have hflag := custom_change_of_forceNew_flagged ⟨state, planned, []⟩ (by simp) hmem
      rw [hold, hnew'] at hflag
      exact ⟨hne, hnew ▸ hv0, hflag.2⟩
    · rintro ⟨hne, hne0, hcu⟩
      refine ⟨⟨_, (hacc _).2 ⟨hne, rfl, hne0⟩⟩, ?_⟩
      exact forceNew_flagged_of_custom_change ⟨state, planned, []⟩ hne hcu
  · intro hflag v hv
    obtain ⟨hne, hnew, -⟩ := (hacc v).1 hv
    have hnot : ¬ ((ResourceDiff.GetChange ⟨state, planned, []⟩ .access).1 = "custom" ∨
        (ResourceDiff.GetChange ⟨state, planned, []⟩ .access).2 = "custom") := by
      intro hcu
      have hmem := forceNew_flagged_of_custom_change ⟨state, planned, []⟩ hne hcu
      rw [hflag] at hmem
      simp at hmem
    constructor
    · intro h
      exact hnot (Or.inl h)
    · intro h
      apply hnot
      right
      rw [← h, hnew]
      rfl

/-- C10 refuted as stated: a record whose access changes from `read` to
`custom` is flagged force-new by `updateComputedAttributes`, and Update, handed
that record, sends an update request that carries access `custom`. -/
theorem update_carries_access_into_custom :
    (updateComputedAttributes (accessDiff "read" "custom")).1.forcedNewKeys = [.access] ∧
    (updateOptions (Data "tws-1" (accessDiff "read" "custom").state
      (accessDiff "read" "custom").planned)).Access = some "custom" ∧
    (resourceTFETeamAccessUpdate storeClient
      (Data "tws-1" (accessDiff "read" "custom").state (accessDiff "read" "custom").planned)
      (storeWorld [sampleBinding])).w.calls =
      [.TeamAccessUpdate "tws-1"
        { Access := some "custom", Runs := none, Variables := none, StateVersions := none,
          SentinelMocks := none, WorkspaceLocking := none }] := by
  decide

/-! ### Create followed by Read -/

/-- Reading twice in a row: when the remote answers the first read with a
binding, a second read on the record and world the first one left returns no
error and leaves the record as the first one left it. -/
theorem read_idempotent_of_ok {σ : Type} (c : Client σ) (d : ResourceData) (w : World σ)
    (ta : TeamAccess) (h : c.TeamAccessRead w.remote d.Id = .ok ta) :
    (resourceTFETeamAccessRead c (resourceTFETeamAccessRead c d w).d
        (resourceTFETeamAccessRead c d w).w).err = none ∧
    (resourceTFETeamAccessRead c (resourceTFETeamAccessRead c d w).d
        (resourceTFETeamAccessRead c d w).w).d = (resourceTFETeamAccessRead c d w).d := by
  have h2 : c.TeamAccessRead (resourceTFETeamAccessRead c d w).w.remote
      (resourceTFETeamAccessRead c d w).d.Id = .ok ta := by
    rw [read_remote, read_of_ok c d w ta h]
    exact h
  rw [read_of_ok c _ _ ta h2]
  refine ⟨rfl, ?_⟩
  rw [read_of_ok c d w ta h]

/-- When Create returns no error and leaves a non-empty ID, it ended in a read
that the remote answered with a binding. -/
theorem create_ok_ends_in_found_read {σ : Type} (c : Client σ) (d : ResourceData)
    (w : World σ) (hok : (resourceTFETeamAccessCreate c d w).err = none)
    (hid : (resourceTFETeamAccessCreate c d w).d.Id ≠ "") :
    ∃ (d0 : ResourceData) (w0 : World σ) (r : TeamAccess),
      resourceTFETeamAccessCreate c d w = resourceTFETeamAccessRead c d0 w0 ∧
      c.TeamAccessRead w0.remote d0.Id = .ok r := by
  cases hws : c.WorkspacesReadByID w.remote (d.Get .workspace_id) with
  | error e =>
    simp [resourceTFETeamAccessCreate, World.record_remote, hws] at hok
  | ok ws =>
    cases htm : c.TeamsRead w.remote (d.Get .team_id) with
    | error e =>
      simp [resourceTFETeamAccessCreate, World.record_remote, hws, htm] at hok
    | ok tm =>
      rw [create_of_resolved c d w ws tm hws htm] at hok hid ⊢
      generalize c.TeamAccessAdd w.remote (createOptions d tm ws) = res at hok hid ⊢
      obtain ⟨e | ta, remote⟩ := res
      · simp at hok
      · simp only at hok hid ⊢
        cases hr : c.TeamAccessRead remote ta.ID with
        | error e =>
          rw [read_of_error c _ _ e hr] at hok hid
          by_cases he : e = TfeError.ErrResourceNotFound
          · rw [if_pos he] at hid
            exact absurd rfl hid
          · rw [if_neg he] at hok
            simp at hok
        | ok r => exact ⟨_, _, r, rfl, hr⟩

/-- C9 (as amended): for every record on which Create returns no error and
leaves a non-empty ID (the read that ends Create found the new binding), Read
run right afterwards on the record and the world Create left returns no error,
leaves the record equal to the one Create produced, and leaves the remote
state as it was. -/
theorem create_then_read_same_record {σ : Type} (c : Client σ) (d : ResourceData)
    (w : World σ) (hok : (resourceTFETeamAccessCreate c d w).err = none)
    (hid : (resourceTFETeamAccessCreate c d w).d.Id ≠ "") :
    (resourceTFETeamAccessRead c (resourceTFETeamAccessCreate c d w).d
        (resourceTFETeamAccessCreate c d w).w).err = none ∧
    (resourceTFETeamAccessRead c (resourceTFETeamAccessCreate c d w).d
        (resourceTFETeamAccessCreate c d w).w).d = (resourceTFETeamAccessCreate c d w).d ∧
    (resourceTFETeamAccessRead c (resourceTFETeamAccessCreate c d w).d
        (resourceTFETeamAccessCreate c d w).w).w.remote =
      (resourceTFETeamAccessCreate c d w).w.remote := by
  refine ⟨?_, ?_, read_remote _ _ _⟩
  · obtain ⟨d0, w0, r, heq, hr⟩ := create_ok_ends_in_found_read c d w hok hid
    rw [heq]
    exact (read_idempotent_of_ok c d0 w0 r hr).1
  · obtain ⟨d0, w0, r, heq, hr⟩ := create_ok_ends_in_found_read c d w hok hid
    rw [heq]
    exact (read_idempotent_of_ok c d0 w0 r hr).2

/-- C9 (as amended) at a concrete input: on the store remote, creating
`lockingFalseRecord` and reading it right afterwards leaves the record
Create produced. -/
theorem create_then_read_same_record_witness :
    (resourceTFETeamAccessRead storeClient
        (resourceTFETeamAccessCreate storeClient lockingFalseRecord (storeWorld [])).d
        (resourceTFETeamAccessCreate storeClient lockingFalseRecord (storeWorld [])).w).d =
      (resourceTFETeamAccessCreate storeClient lockingFalseRecord (storeWorld [])).d :=
  (create_then_read_same_record storeClient lockingFalseRecord (storeWorld [])
    (by decide) (by decide)).2.1

/-- C9 refuted as stated: on the remote that does not keep the binding, Create
of `readAccessRecord` returns no error (its closing read is answered
not-found, which clears the ID), and Read run right afterwards on the record
and the world Create left returns an error. -/
theorem create_ok_then_read_fails :
    (resourceTFETeamAccessCreate lossyClient readAccessRecord startWorld).err = none ∧
    (resourceTFETeamAccessCreate lossyClient readAccessRecord startWorld).d.Id = "" ∧
    (resourceTFETeamAccessRead lossyClient
        (resourceTFETeamAccessCreate lossyClient readAccessRecord startWorld).d
        (resourceTFETeamAccessCreate lossyClient readAccessRecord startWorld).w).err =
      some "Error reading configuration of team access : invalid value for team access ID" := by
  decide

/-! ### Importer -/

/-- Cutting fails exactly when the separator does not occur. -/
theorem cutAt_eq_none_iff (sep : Char) (s : List Char) : cutAt sep s = none ↔ sep ∉ s := by
  induction s with
  | nil => simp [cutAt]
  | cons c cs ih =>
    unfold cutAt
    by_cases h : c = sep
    · simp [h]
    · have h' : ¬ sep = c := fun e => h e.symm
      cases hc : cutAt sep cs with
      | none => simpa [h, h', hc] using ih.1 hc
      | some p =>
        have : sep ∈ cs := by
          by_contra hn
          rw [ih.2 hn] at hc
          cases hc
        simp [h, this]

/-- Cutting a string whose first separator sits right after `a`. -/
theorem cutAt_append (sep : Char) (a b : List Char) (h : sep ∉ a) :
    cutAt sep (a ++ sep :: b) = some (a, b) := by
  induction a with
  | nil => simp [cutAt]
  | cons c cs ih =>
    have hc : c ≠ sep := fun e => h (e ▸ List.mem_cons_self _ _)
    have hcs : sep ∉ cs := fun e => h (List.mem_cons_of_mem _ e)
    simp [cutAt, hc, ih hcs]

/-- A successful cut splits the string at its first separator. -/
theorem cutAt_eq_some (sep : Char) (s a b : List Char) (h : cutAt sep s = some (a, b)) :
    s = a ++ sep :: b ∧ sep ∉ a := by
  induction s generalizing a with
  | nil => simp [cutAt] at h
  | cons c cs ih =>
    unfold cutAt at h
    by_cases hc : c = sep
    · simp only [hc, if_true, Option.some.injEq, Prod.mk.injEq] at h
      obtain ⟨rfl, rfl⟩ := h
      simp [hc]
    · simp only [hc, if_false] at h
      cases hcut : cutAt sep cs with
      | none => simp [hcut] at h
      | some p =>
        obtain ⟨a', b'⟩ := p
        simp only [hcut, Option.some.injEq, Prod.mk.injEq] at h
        obtain ⟨rfl, rfl⟩ := h
        obtain ⟨h1, h2⟩ := ih a' hcut
        refine ⟨by rw [h1]; rfl, ?_⟩
        intro hm
        rcases List.mem_cons.1 hm with e | e
        · exact hc e.symm
        · exact h2 e

/-- The loop never yields more pieces than separators plus one. -/
theorem splitLoop_length_le (sep : Char) (n : Nat) (s : List Char) :
    (splitLoop sep n s).length ≤ s.count sep + 1 := by
  induction n using Nat.strong_induction_on generalizing s with
  | _ n ih =>
    match n with
    | 0 => simp [splitLoop]
    | 1 => simp [splitLoop]
    | m + 2 =>
      unfold splitLoop
      cases hc : cutAt sep s with
      | none => simp
      | some p =>
        obtain ⟨a, b⟩ := p
        obtain ⟨h1, h2⟩ := cutAt_eq_some sep s a b hc
        have := ih (m + 1) (by omega) b
        simp only [List.length_cons]
        rw [h1, List.count_append, List.count_cons_self, List.count_eq_zero_of_not_mem h2]
        omega

/-- A string has at least as many bytes as characters. -/
theorem length_le_utf8Len (s : List Char) : s.length ≤ String.utf8Len s := by
  induction s with
  | nil => simp
  | cons c cs ih =>
    have := c.utf8Size_pos
    simp only [List.length_cons, String.utf8Len_cons]
    omega

/-- Splitting `a/b/r` into at most three pieces, when `a` and `b` hold no
separator: the pieces are `a`, `b` and the whole remainder `r`. -/
theorem SplitN_three (s0 s1 s2 : String) (h0 : '/' ∉ s0.toList) (h1 : '/' ∉ s1.toList) :
    SplitN (s0 ++ "/" ++ s1 ++ "/" ++ s2) '/' 3 = [s0, s1, s2] := by
  obtain ⟨a⟩ := s0
  obtain ⟨b⟩ := s1
  obtain ⟨r⟩ := s2
  have hs : (String.mk a ++ "/" ++ String.mk b ++ "/" ++ String.mk r)
      = String.mk (a ++ '/' :: (b ++ '/' :: r)) := by
    apply String.ext
    simp
  rw [hs]
  have hlen : 2 ≤ String.utf8Len (a ++ '/' :: (b ++ '/' :: r)) := by
    refine le_trans ?_ (length_le_utf8Len _)
    simp
    omega
  unfold SplitN
  simp only [String.utf8ByteSize_mk, String.toList]
  rw [if_neg (by omega)]
  simp only [splitLoop, cutAt_append '/' a _ h0, cutAt_append '/' b _ h1]
  rfl

/-- The importer when the identifier does not split into three pieces. -/
theorem importer_of_length_ne {σ : Type} (c : Client σ) (d : ResourceData) (w : World σ)
    (h : (SplitN d.Id '/' 3).length ≠ 3) :
    resourceTFETeamAccessImporter c d w = ⟨[], some (invalidImportFormat d.Id), w⟩ := by
  unfold resourceTFETeamAccessImporter
  split
  · rename_i s0 s1 s2 heq
    rw [heq] at h
    exact absurd rfl h
  · rfl

/-- The importer when the identifier splits into three pieces. -/
theorem importer_of_three {σ : Type} (c : Client σ) (d : ResourceData) (w : World σ)
    (s0 s1 s2 : String) (h : SplitN d.Id '/' 3 = [s0, s1, s2]) :
    resourceTFETeamAccessImporter c d w =
      match c.fetchWorkspaceExternalID w.remote (s0 ++ "/" ++ s1) with
      | .error err =>
        ⟨[], some ("error retrieving workspace " ++ s0 ++ " from organization " ++ s1
            ++ ": " ++ err.Error), w.record (.fetchWorkspaceExternalID (s0 ++ "/" ++ s1))⟩
      | .ok workspace_id =>
        ⟨[(d.Set .workspace_id workspace_id).SetId s2], none,
          w.record (.fetchWorkspaceExternalID (s0 ++ "/" ++ s1))⟩ := by
  unfold resourceTFETeamAccessImporter
  rw [h]
  rfl

/-- An identifier with at least two separators is `a/b/r` with no separator in
`a` and `b`. -/
theorem exists_three_of_count (s : List Char) (h : 2 ≤ s.count '/') :
    ∃ a b r, s = a ++ '/' :: (b ++ '/' :: r) ∧ '/' ∉ a ∧ '/' ∉ b := by
  cases hc : cutAt '/' s with
  | none =>
    have := (cutAt_eq_none_iff '/' s).1 hc
    rw [List.count_eq_zero_of_not_mem this] at h
    omega
  | some p =>
    obtain ⟨a, rest⟩ := p
    obtain ⟨h1, h2⟩ := cutAt_eq_some '/' s a rest hc
    have hrest : 1 ≤ rest.count '/' := by
      rw [h1, List.count_append, List.count_cons_self, List.count_eq_zero_of_not_mem h2] at h
      omega
    cases hc2 : cutAt '/' rest with
    | none =>
      have := (cutAt_eq_none_iff '/' rest).1 hc2
      rw [List.count_eq_zero_of_not_mem this] at hrest
      omega
    | some q =>
      obtain ⟨b, r⟩ := q
      obtain ⟨h3, h4⟩ := cutAt_eq_some '/' rest b r hc2
      exact ⟨a, b, r, by rw [h1, h3], h2, h4⟩

/-- C6 (as amended): the importer checks only that the identifier holds at
least two separators. An identifier with fewer than two `/` fails with the
invalid-import-format error, returns no record and leaves the world as it was
(no remote lookup). An identifier with two or more `/` passes the check: it is
`s0/s1/s2` with no `/` in `s0` and `s1`, where `s2` is everything after the
second `/` (it may hold further `/`) and each piece may be empty, and the
importer goes on to look up the workspace `s0/s1`. -/
theorem importer_format_check {σ : Type} (c : Client σ) (d : ResourceData) (w : World σ) :
    (d.Id.toList.count '/' < 2 →
      (resourceTFETeamAccessImporter c d w).recs = [] ∧
      (resourceTFETeamAccessImporter c d w).err = some (invalidImportFormat d.Id) ∧
      (resourceTFETeamAccessImporter c d w).w = w) ∧
    (2 ≤ d.Id.toList.count '/' →
      ∃ s0 s1 s2 : String,
        d.Id = s0 ++ "/" ++ s1 ++ "/" ++ s2 ∧ '/' ∉ s0.toList ∧ '/' ∉ s1.toList ∧
        SplitN d.Id '/' 3 = [s0, s1, s2] ∧
        (resourceTFETeamAccessImporter c d w).w.calls =
          w.calls ++ [.fetchWorkspaceExternalID (s0 ++ "/" ++ s1)]) := by
  constructor
  · intro h
    have hlen : (SplitN d.Id '/' 3).length ≠ 3 := by
      unfold SplitN
      simp only [List.length_map]
      have := splitLoop_length_le '/'
        (if 3 > d.Id.utf8ByteSize + 1 then d.Id.utf8ByteSize + 1 else 3) d.Id.toList
      omega
    rw [importer_of_length_ne c d w hlen]
    exact ⟨rfl, rfl, rfl⟩
  · intro h
    obtain ⟨a, b, r, hs, ha, hb⟩ := exists_three_of_count d.Id.toList h
    have hid : d.Id = String.mk a ++ "/" ++ String.mk b ++ "/" ++ String.mk r := by
      apply String.ext
      simpa using hs
    have hsplit : SplitN d.Id '/' 3 = [String.mk a, String.mk b, String.mk r] := by
      rw [hid]
      exact SplitN_three _ _ _ ha hb
    refine ⟨String.mk a, String.mk b, String.mk r, hid, ha, hb, hsplit, ?_⟩
    rw [importer_of_three c d w _ _ _ hsplit]
    cases c.fetchWorkspaceExternalID w.remote (String.mk a ++ "/" ++ String.mk b) <;> rfl

/-- C6 refuted as stated: on the store remote, the four-segment identifier
`a/b/c/d` is accepted (workspace `a/b` is looked up and a record with ID `c/d`
is returned), and so is `a//c` with its empty middle segment (workspace `a/`
is looked up and a record with ID `c` is returned). -/
theorem importer_accepts_four_segments_and_empty_segment :
    (resourceTFETeamAccessImporter storeClient (blankRecord "a/b/c/d") (storeWorld [])).err
      = none ∧
    (resourceTFETeamAccessImporter storeClient (blankRecord "a/b/c/d")
      (storeWorld [])).recs.map ResourceData.Id = ["c/d"] ∧
    (resourceTFETeamAccessImporter storeClient (blankRecord "a/b/c/d")
      (storeWorld [])).w.calls = [.fetchWorkspaceExternalID "a/b"] ∧
    (resourceTFETeamAccessImporter storeClient (blankRecord "a//c") (storeWorld [])).err
      = none ∧
    (resourceTFETeamAccessImporter storeClient (blankRecord "a//c")
      (storeWorld [])).recs.map ResourceData.Id = ["c"] ∧
    (resourceTFETeamAccessImporter storeClient (blankRecord "a//c")
      (storeWorld [])).w.calls = [.fetchWorkspaceExternalID "a/"] := by
  decide

/-- C7: for every identifier `org/workspace/id` whose first two segments hold
no `/` (in particular for three non-empty segments without `/`), the importer
makes exactly one remote call, the lookup of the workspace under the key
`org/workspace`. When the lookup answers with the external ID `x`, the
importer returns no error and exactly one record: the given record with its
ID set to the third segment and `workspace_id` set to `x`, every other
attribute as it was. When the lookup fails, the importer returns an error and
no record. -/
theorem importer_resolves_workspace {σ : Type} (c : Client σ) (d : ResourceData) (w : World σ)
    (org wsName tid : String) (hid : d.Id = org ++ "/" ++ wsName ++ "/" ++ tid)
    (horg : '/' ∉ org.toList) (hws : '/' ∉ wsName.toList) :
    (resourceTFETeamAccessImporter c d w).w.calls =
      w.calls ++ [.fetchWorkspaceExternalID (org ++ "/" ++ wsName)] ∧
    (∀ x, c.fetchWorkspaceExternalID w.remote (org ++ "/" ++ wsName) = .ok x →
      (resourceTFETeamAccessImporter c d w).err = none ∧
      ∃ r, (resourceTFETeamAccessImporter c d w).recs = [r] ∧
        r.Id = tid ∧ r.Get .workspace_id = x ∧
        r.state = d.state ∧ r.planned = d.planned ∧
        r.written = { d.written with workspace_id := some x }) ∧
    (∀ e, c.fetchWorkspaceExternalID w.remote (org ++ "/" ++ wsName) = .error e →
      (resourceTFETeamAccessImporter c d w).err =
        some ("error retrieving workspace " ++ org ++ " from organization " ++ wsName
          ++ ": " ++ e.Error) ∧
      (resourceTFETeamAccessImporter c d w).recs = []) := by
  have hsplit : SplitN d.Id '/' 3 = [org, wsName, tid] := by
    rw [hid]
    exact SplitN_three _ _ _ horg hws
  rw [importer_of_three c d w _ _ _ hsplit]
  refine ⟨?_, ?_, ?_⟩
  · cases c.fetchWorkspaceExternalID w.remote (org ++ "/" ++ wsName) <;> rfl
  · intro x hx
    rw [hx]
    exact ⟨rfl, _, rfl, rfl, rfl, rfl, rfl, rfl⟩
  · intro e he
    rw [he]
    exact ⟨rfl, rfl⟩

/-- C7 at the identifier `acme/prod-ws/ta-123`: on the store remote the
workspace `acme/prod-ws` is looked up and no error is returned. -/
theorem importer_resolves_workspace_witness :
    (resourceTFETeamAccessImporter storeClient (blankRecord "acme/prod-ws/ta-123")
      (storeWorld [])).w.calls = [.fetchWorkspaceExternalID "acme/prod-ws"] ∧
    (resourceTFETeamAccessImporter storeClient (blankRecord "acme/prod-ws/ta-123")
      (storeWorld [])).err = none :=
  ⟨(importer_resolves_workspace storeClient (blankRecord "acme/prod-ws/ta-123")
      (storeWorld []) "acme" "prod-ws" "ta-123" (by decide) (by decide) (by decide)).1,
   ((importer_resolves_workspace storeClient (blankRecord "acme/prod-ws/ta-123")
      (storeWorld []) "acme" "prod-ws" "ta-123" (by decide) (by decide) (by decide)).2.1
      "ws-of-acme/prod-ws" rfl).1⟩

end Tfe
